import Mathlib

/-!
Shallow embedding of the statistics/salience core of `analyzer.py` from the
git-test-mvn repository, together with theorems settling the frozen claims
about it.

Conventions of the embedding:
* Python floats are idealised as exact rationals (`ℚ`); the one place the code
  takes a square root (`statistics.stdev`) lands in `ℝ`.
* The module-level globals `DELTA_THRESHOLD` / `SPEEDUP_THRESHOLD` read by
  `is_salient` and `analyze_report_list` are passed as explicit parameters
  `dt` / `st`; the defaults from lines 11-12 of the source are the constants
  `DELTA_THRESHOLD` and `SPEEDUP_THRESHOLD` below.
* The Python `dict` built by `find_salient_commits` is modelled as an
  insertion-ordered association list with unique keys.
* Raising an exception is modelled with `Except`.
-/

namespace Analyzer

/-- The payload of one JUnit report: the test's name and its measured
runtime.  Field shapes follow the accesses made in `analyzer.py`
(`report.test_name`, `report.time_elapsed`). -/
structure JUnitReport where
  test_name : String
  time_elapsed : ℚ
deriving DecidableEq

/-- One commit's report record (`objects.JUnitCommitReport`): a commit id and
the report payload, as accessed in `analyzer.py`. -/
structure JUnitCommitReport where
  commit_id : String
  report : JUnitReport
deriving DecidableEq

/-- Per-adjacent-pair statistic (`objects.JUnitStatistics`), with exactly the
fields `analyzer.py` constructs: commit id, the current runtime, the speedup
ratio and the runtime delta. -/
structure JUnitStatistics where
  commit_id : String
  runtime : ℚ
  speedup : ℚ
  runtime_delta : ℚ
deriving DecidableEq

/-- Per-series statistics record (`objects.BenchmarkStatistics`) with the
fields `analyze_report_list` fills in: test name, standard deviation, the two
thresholds active at computation time and the list of pairwise statistics. -/
structure BenchmarkStatistics where
  test_name : String
  std_dev : ℝ
  delta_threshold : ℚ
  speedup_threshold : ℚ
  junit_statistics : List JUnitStatistics

/-- Modelled from the spec: the record `find_salient_commits` stores under a
commit's key.  The source builds it as `utils.unpack(commit_statistics)` plus
the owning `test_name` with the commit-id key (`const.HEXSHA`) popped;
`utils.py` and `const.py` are not part of the analysed sources, and the spec
says the record carries the originating `test_name` and the
`CommitStatistic` fields with the commit id excluded (it is the map key). -/
structure SalienceData where
  test_name : String
  runtime : ℚ
  speedup : ℚ
  runtime_delta : ℚ
deriving DecidableEq

/-- The single failure mode of the statistics engine: an empty report list.
In the Python source the failure surfaces as the subscript error raised by
`reports[0]` on line 133; the spec's error taxonomy names it
`EmptySeriesError`. -/
inductive AnalyzerError where
  | emptySeriesError
deriving DecidableEq

/-- Module-level default delta threshold (line 11: `DELTA_THRESHOLD = 2`). -/
def DELTA_THRESHOLD : ℚ := 2

/-- Module-level default speedup threshold (line 12:
`SPEEDUP_THRESHOLD = 2.0`). -/
def SPEEDUP_THRESHOLD : ℚ := 2

/-- Python's `int()` applied to a float: truncation toward zero. -/
def pyInt (q : ℚ) : ℤ := if 0 ≤ q then ⌊q⌋ else ⌈q⌉

/-- A default report, used only to state list indexing with `List.getD`. -/
def defaultReport : JUnitCommitReport := ⟨"", ⟨"", 0⟩⟩

/-- Arithmetic mean of a list of rationals, as `statistics.stdev` computes it
internally. -/
def listMean (xs : List ℚ) : ℚ := xs.sum / xs.length

/-- Sample variance with Bessel's correction: the quantity whose square root
Python's `statistics.stdev` returns. -/
def sample_variance (xs : List ℚ) : ℚ :=
  ((xs.map fun x => (x - listMean xs) ^ 2).sum) / ((xs.length : ℚ) - 1)

/-- Embeds `compute_std_deviation` (lines 144-150): the sample standard
deviation of all `time_elapsed` measurements, via `statistics.stdev`. -/
noncomputable def compute_std_deviation (reports : List JUnitCommitReport) : ℝ :=
  Real.sqrt ((sample_variance (reports.map fun r => r.report.time_elapsed) : ℚ) : ℝ)

/-- The std-dev selection of `analyze_report_list` (lines 108-111):
`std_dev = 0.0`, replaced by `compute_std_deviation` when the series has at
least two elements. -/
noncomputable def series_std_dev (reports : List JUnitCommitReport) : ℝ :=
  if 2 ≤ reports.length then compute_std_deviation reports else 0

/-- The body of the pairwise loop of `analyze_report_list` (lines 117-129)
at index `i`: compare commit `i` against the next older commit `i+1`.  The
zero guard on the baseline is Python's `int(next_runtime) is not 0`, i.e. the
truncated baseline is compared (by identity, which for CPython's cached small
ints is equality) against `0`. -/
def pair_stat (reports : List JUnitCommitReport) (i : ℕ) : JUnitStatistics :=
  let current := reports.getD i defaultReport
  let next := reports.getD (i + 1) defaultReport
  { commit_id := current.commit_id
    runtime := current.report.time_elapsed
    speedup :=
      if pyInt next.report.time_elapsed ≠ 0 then
        current.report.time_elapsed / next.report.time_elapsed
      else 0
    runtime_delta := current.report.time_elapsed - next.report.time_elapsed }

/-- Embeds `analyze_report_list` (lines 103-141).  `dt`, `st` are the global
thresholds stored into the result (lines 137-138).  On an empty list the
Python function raises at `reports[0]` (line 133) before returning anything;
here that failure is the `emptySeriesError` value. -/
noncomputable def analyze_report_list (dt st : ℚ) (reports : List JUnitCommitReport) :
    Except AnalyzerError BenchmarkStatistics :=
  match reports with
  | [] => .error .emptySeriesError
  | r0 :: _ =>
    .ok { test_name := r0.report.test_name
          std_dev := series_std_dev reports
          delta_threshold := dt
          speedup_threshold := st
          junit_statistics := (List.range (reports.length - 1)).map (pair_stat reports) }

/-- Embeds `is_salient` (lines 91-94): salient iff the runtime delta exceeds
the global delta threshold or the speedup exceeds the global speedup
threshold (here the explicit parameters `dt`, `st`). -/
def is_salient (dt st : ℚ) (cs : JUnitStatistics) : Bool :=
  decide (cs.runtime_delta > dt) || decide (cs.speedup > st)

/-- Modelled from the spec: `utils.unpack` on a statistics object followed by
adding the test name and popping the commit-id key (lines 79-81). -/
def unpack_salient (tn : String) (cs : JUnitStatistics) : SalienceData :=
  { test_name := tn
    runtime := cs.runtime
    speedup := cs.speedup
    runtime_delta := cs.runtime_delta }

/-- Python-dict update used by `find_salient_commits` (lines 83-86): append
`v` to the list under key `k` when the key is present, else add the new key
at the end.  On the unique-key lists the analyzer builds, appending to the
first occurrence is exactly `dict` behaviour. -/
def dict_append :
    List (String × List SalienceData) → String → SalienceData →
      List (String × List SalienceData)
  | [], k, v => [(k, [v])]
  | p :: rest, k, v =>
      if p.1 = k then (p.1, p.2 ++ [v]) :: rest else p :: dict_append rest k v

/-- One iteration of the inner loop of `find_salient_commits`
(lines 76-86): record the statistic under its commit id when salient. -/
def salient_step (dt st : ℚ) (tn : String)
    (acc : List (String × List SalienceData)) (cs : JUnitStatistics) :
    List (String × List SalienceData) :=
  if is_salient dt st cs then dict_append acc cs.commit_id (unpack_salient tn cs)
  else acc

/-- Embeds `find_salient_commits` (lines 65-88): fold every series'
statistics through `salient_step`, starting from the empty dict.  Note the
classification uses the global thresholds `dt`, `st`, not the thresholds
stored in each `BenchmarkStatistics`. -/
def find_salient_commits (dt st : ℚ) (l : List BenchmarkStatistics) :
    List (String × List SalienceData) :=
  l.foldl
    (fun acc bs => bs.junit_statistics.foldl (salient_step dt st bs.test_name) acc)
    []

/-- Total number of salience records across all values of the map. -/
def total_count (m : List (String × List SalienceData)) : ℕ :=
  (m.map fun p => p.2.length).sum

/-- The keys of the salient-commit map, in insertion order. -/
def keys (m : List (String × List SalienceData)) : List String :=
  m.map fun p => p.1

/-- The value list stored under key `k` (the empty list when `k` is absent);
reads the first occurrence, as a Python `dict` lookup does on the unique-key
lists the analyzer builds. -/
def valueAt : List (String × List SalienceData) → String → List SalienceData
  | [], _ => []
  | p :: rest, k => if p.1 = k then p.2 else valueAt rest k

end Analyzer

namespace Analyzer

/-! ### Helper lemmas about `analyze_report_list` -/

/-- On a non-empty list, `analyze_report_list` succeeds and its pairwise
statistics are the range-indexed `pair_stat` values. -/
lemma analyze_report_list_cons (dt st : ℚ) (r0 : JUnitCommitReport)
    (rest : List JUnitCommitReport) :
    analyze_report_list dt st (r0 :: rest) =
      .ok { test_name := r0.report.test_name
            std_dev := series_std_dev (r0 :: rest)
            delta_threshold := dt
            speedup_threshold := st
            junit_statistics :=
              (List.range ((r0 :: rest).length - 1)).map (pair_stat (r0 :: rest)) } := rfl

lemma junit_statistics_of_ok (dt st : ℚ) (reports : List JUnitCommitReport)
    (bs : BenchmarkStatistics) (hok : analyze_report_list dt st reports = .ok bs) :
    bs.junit_statistics =
      (List.range (reports.length - 1)).map (pair_stat reports) := by
  cases reports with
  | nil => simp [analyze_report_list] at hok
  | cons r0 rest =>
    rw [analyze_report_list_cons] at hok
    cases hok
    rfl

end Analyzer

namespace Analyzer

/-- C2: `is_salient` is true exactly when the delta exceeds the delta
threshold or the speedup exceeds the speedup threshold; as a Lean function it
is total over all `JUnitStatistics` values, including delta 0 and speedup 0. -/
theorem is_salient_iff (dt st : ℚ) (cs : JUnitStatistics) :
    is_salient dt st cs = true ↔ (cs.runtime_delta > dt ∨ cs.speedup > st) := by
  simp [is_salient]

/-- C3: on an input series of length 0 the statistics computation fails with
the empty-series error; it never returns a (zero-valued or other) result. -/
theorem analyze_report_list_empty_fails (dt st : ℚ) :
    analyze_report_list dt st [] = .error .emptySeriesError := rfl

/-- C1 (amended): for a non-empty series the computation succeeds with
exactly `n - 1` pairwise statistics; entry `i` carries the commit id and
runtime of report `i`, `delta = m i - m (i+1)`, and
`speedup = m i / m (i+1)` when the baseline `m (i+1)` truncated to an integer
is non-zero, else `speedup = 0`. -/
theorem analyze_report_list_pairwise (dt st : ℚ) (reports : List JUnitCommitReport)
    (h : reports ≠ []) :
    ∃ bs, analyze_report_list dt st reports = .ok bs ∧
      bs.junit_statistics.length = reports.length - 1 ∧
      ∀ i, i + 1 < reports.length →
        bs.junit_statistics[i]? =
          some { commit_id := (reports.getD i defaultReport).commit_id
                 runtime := (reports.getD i defaultReport).report.time_elapsed
                 speedup :=
                   if pyInt ((reports.getD (i + 1) defaultReport).report.time_elapsed) ≠ 0 then
                     (reports.getD i defaultReport).report.time_elapsed /
                       (reports.getD (i + 1) defaultReport).report.time_elapsed
                   else 0
                 runtime_delta :=
                   (reports.getD i defaultReport).report.time_elapsed -
                     (reports.getD (i + 1) defaultReport).report.time_elapsed } := by
  match reports, h with
  | r0 :: rest, _ =>
    refine ⟨_, analyze_report_list_cons dt st r0 rest, by simp, ?_⟩
    intro i hi
    have hlt : i < (r0 :: rest).length - 1 := by
      simpa using Nat.lt_of_succ_lt_succ (by simpa using hi)
    rw [List.getElem?_map, List.getElem?_range hlt]
    rfl

/-- Witness for C1 (amended): the pairwise characterisation evaluated on the
concrete two-report series `[("a", 3), ("b", 1)]`. -/
theorem analyze_report_list_pairwise_witness :
    ([(⟨"a", ⟨"T", 3⟩⟩ : JUnitCommitReport), ⟨"b", ⟨"T", 1⟩⟩] ≠ []) ∧
    (∃ bs, analyze_report_list 2 2 [(⟨"a", ⟨"T", 3⟩⟩ : JUnitCommitReport), ⟨"b", ⟨"T", 1⟩⟩] = .ok bs ∧
      bs.junit_statistics.length =
        [(⟨"a", ⟨"T", 3⟩⟩ : JUnitCommitReport), ⟨"b", ⟨"T", 1⟩⟩].length - 1 ∧
      ∀ i, i + 1 < [(⟨"a", ⟨"T", 3⟩⟩ : JUnitCommitReport), ⟨"b", ⟨"T", 1⟩⟩].length →
        bs.junit_statistics[i]? =
          some { commit_id :=
                   ([(⟨"a", ⟨"T", 3⟩⟩ : JUnitCommitReport), ⟨"b", ⟨"T", 1⟩⟩].getD i
                     defaultReport).commit_id
                 runtime :=
                   ([(⟨"a", ⟨"T", 3⟩⟩ : JUnitCommitReport), ⟨"b", ⟨"T", 1⟩⟩].getD i
                     defaultReport).report.time_elapsed
                 speedup :=
                   if pyInt (([(⟨"a", ⟨"T", 3⟩⟩ : JUnitCommitReport), ⟨"b", ⟨"T", 1⟩⟩].getD (i + 1)
                       defaultReport).report.time_elapsed) ≠ 0 then
                     ([(⟨"a", ⟨"T", 3⟩⟩ : JUnitCommitReport), ⟨"b", ⟨"T", 1⟩⟩].getD i
                         defaultReport).report.time_elapsed /
                       ([(⟨"a", ⟨"T", 3⟩⟩ : JUnitCommitReport), ⟨"b", ⟨"T", 1⟩⟩].getD (i + 1)
                         defaultReport).report.time_elapsed
                   else 0
                 runtime_delta :=
                   ([(⟨"a", ⟨"T", 3⟩⟩ : JUnitCommitReport), ⟨"b", ⟨"T", 1⟩⟩].getD i
                       defaultReport).report.time_elapsed -
                     ([(⟨"a", ⟨"T", 3⟩⟩ : JUnitCommitReport), ⟨"b", ⟨"T", 1⟩⟩].getD (i + 1)
                       defaultReport).report.time_elapsed }) :=
  ⟨by simp, analyze_report_list_pairwise 2 2
    [(⟨"a", ⟨"T", 3⟩⟩ : JUnitCommitReport), ⟨"b", ⟨"T", 1⟩⟩] (by simp)⟩

/-- C1 (counterexample): on the series with measurements `[1, 1/2]` the
computed speedup of the single pair is `0`, although the baseline
measurement `1/2` is non-zero and the claimed ratio `1 / (1/2) = 2` is not
`0`: the claim's zero-baseline condition `m[i+1] != 0` does not match the
code's truncating guard `int(next_runtime) is not 0`. -/
theorem analyze_report_list_speedup_fraction_cex :
    (analyze_report_list DELTA_THRESHOLD SPEEDUP_THRESHOLD
        [⟨"c1", ⟨"T", 1⟩⟩, ⟨"c2", ⟨"T", 1/2⟩⟩]).toOption.map
        (fun bs => bs.junit_statistics.map JUnitStatistics.speedup) = some [0] ∧
    ((1 : ℚ)/2 ≠ 0) ∧ ((1 : ℚ) / (1/2) = 2) ∧ ((0 : ℚ) ≠ 2) := by
  refine ⟨?_, by norm_num, by norm_num, by norm_num⟩
  simp [analyze_report_list, pair_stat, pyInt, Except.toOption, List.range_succ]
  norm_num

/-- C8: with the speedup held at or below the speedup threshold, salience is
monotone in the delta — once true it stays true for every larger delta — and
in fact holds exactly when the delta exceeds the delta threshold. -/
theorem is_salient_monotone_delta (dt st : ℚ) (cs : JUnitStatistics)
    (h : cs.speedup ≤ st) :
    (∀ d₁ d₂, d₁ ≤ d₂ →
        is_salient dt st { cs with runtime_delta := d₁ } = true →
        is_salient dt st { cs with runtime_delta := d₂ } = true) ∧
    (∀ d, is_salient dt st { cs with runtime_delta := d } = true ↔ dt < d) := by
  constructor
  · intro d₁ d₂ hle hsal
    simp only [is_salient] at hsal ⊢
    simp only [Bool.or_eq_true, decide_eq_true_eq] at hsal ⊢
    rcases hsal with h1 | h2
    · exact Or.inl (lt_of_lt_of_le h1 hle)
    · exact Or.inr h2
  · intro d
    simp only [is_salient, Bool.or_eq_true, decide_eq_true_eq]
    constructor
    · rintro (h1 | h2)
      · exact h1
      · exact absurd h2 (not_lt.mpr h)
    · exact Or.inl

/-- Witness for C8: a statistic with speedup `1 ≤ 2` and delta `3 > 2` is
salient, by the monotone characterisation. -/
theorem is_salient_monotone_delta_witness :
    is_salient 2 2 ⟨"c", 1, 1, 3⟩ = true :=
  ((is_salient_monotone_delta 2 2 ⟨"c", 1, 1, 0⟩ (by norm_num)).2 3).mpr (by norm_num)

/-- C9: whenever the next-older (baseline) measurement `r` of an adjacent
pair satisfies `0 ≤ r < 1`, the computed speedup of that pair is `0`, even
when `r ≠ 0`, because the guard truncates the baseline to an integer before
comparing with zero. -/
theorem speedup_zero_of_fractional_baseline (dt st : ℚ)
    (reports : List JUnitCommitReport) (bs : BenchmarkStatistics)
    (hok : analyze_report_list dt st reports = .ok bs)
    (i : ℕ) (s : JUnitStatistics) (hs : bs.junit_statistics[i]? = some s)
    (h0 : 0 ≤ (reports.getD (i + 1) defaultReport).report.time_elapsed)
    (h1 : (reports.getD (i + 1) defaultReport).report.time_elapsed < 1) :
    s.speedup = 0 := by
  rw [junit_statistics_of_ok dt st reports bs hok, List.getElem?_map] at hs
  have hi : i < reports.length - 1 := by
    by_contra hcon
    rw [List.getElem?_eq_none (by simpa using Nat.le_of_not_lt hcon)] at hs
    simp at hs
  rw [List.getElem?_range hi] at hs
  have hps : pair_stat reports i = s := by simpa using hs
  subst hps
  have hfloor : pyInt ((reports.getD (i + 1) defaultReport).report.time_elapsed) = 0 := by
    rw [pyInt, if_pos h0]
    exact Int.floor_eq_zero_iff.mpr ⟨h0, h1⟩
  simp only [pair_stat]
  rw [if_neg (not_not.mpr hfloor)]

/-- Witness for C9: a series of two identical measurements `1/2` yields
speedup `0` for its single pair, not `1`. -/
theorem speedup_zero_of_fractional_baseline_witness :
    (pair_stat [⟨"a", ⟨"T", 1/2⟩⟩, ⟨"b", ⟨"T", 1/2⟩⟩] 0).speedup = 0 := by
  refine speedup_zero_of_fractional_baseline 2 2
    [⟨"a", ⟨"T", 1/2⟩⟩, ⟨"b", ⟨"T", 1/2⟩⟩]
    ⟨"T", series_std_dev [⟨"a", ⟨"T", 1/2⟩⟩, ⟨"b", ⟨"T", 1/2⟩⟩], 2, 2,
      [pair_stat [⟨"a", ⟨"T", 1/2⟩⟩, ⟨"b", ⟨"T", 1/2⟩⟩] 0]⟩
    rfl 0 (pair_stat [⟨"a", ⟨"T", 1/2⟩⟩, ⟨"b", ⟨"T", 1/2⟩⟩] 0) rfl ?_ ?_
  · norm_num
  · norm_num

end Analyzer

namespace Analyzer

/-- C4: the std-dev step yields, for series of length at least 2, the sample
standard deviation (squared deviations from the mean, divided by `n - 1`,
square-rooted) of all measurements, and `0.0` for series of length 0 or 1 as
a defined value, not an error; the `std_dev` field of every successfully
produced `BenchmarkStatistics` is exactly this quantity. -/
theorem series_std_dev_spec (dt st : ℚ) (reports : List JUnitCommitReport) :
    (2 ≤ reports.length →
      series_std_dev reports =
        Real.sqrt (((((reports.map fun r => r.report.time_elapsed).map fun x =>
            (x - (reports.map fun r => r.report.time_elapsed).sum / (reports.length : ℚ)) ^ 2).sum /
          ((reports.length : ℚ) - 1) : ℚ) : ℝ))) ∧
    (reports.length ≤ 1 → series_std_dev reports = 0) ∧
    (∀ bs, analyze_report_list dt st reports = .ok bs → bs.std_dev = series_std_dev reports) := by
  refine ⟨?_, ?_, ?_⟩
  · intro h2
    rw [series_std_dev, if_pos h2, compute_std_deviation]
    simp [sample_variance, listMean]
  · intro h1
    rw [series_std_dev, if_neg (by omega)]
  · intro bs hok
    cases reports with
    | nil => simp [analyze_report_list] at hok
    | cons r0 rest =>
      rw [analyze_report_list_cons] at hok
      cases hok
      rfl

/-- Witness for C4: on the two-measurement series `[1, 3]` the std-dev step
evaluates to `√2` (mean 2, squared deviations 1 and 1, divided by 1). -/
theorem series_std_dev_spec_witness :
    series_std_dev [⟨"a", ⟨"T", 1⟩⟩, ⟨"b", ⟨"T", 3⟩⟩] = Real.sqrt ((2 : ℚ) : ℝ) := by
  have h := (series_std_dev_spec 2 2 [⟨"a", ⟨"T", 1⟩⟩, ⟨"b", ⟨"T", 3⟩⟩]).1 (by norm_num)
  rw [h]
  congr 1
  norm_num

/-- C5 (counterexample): a series whose stored thresholds are both `100`
contains a statistic (delta 3, speedup 1) that is not salient under those
stored thresholds, yet `find_salient_commits` — called with the global
default thresholds, as in the source — flags it: classification ignores the
series' own stored `delta_threshold` / `speedup_threshold` fields. -/
theorem find_salient_commits_stored_thresholds_cex :
    is_salient (100 : ℚ) (100 : ℚ) ⟨"c", 5, 1, 3⟩ = false ∧
    find_salient_commits DELTA_THRESHOLD SPEEDUP_THRESHOLD
        [⟨"T", 0, 100, 100, [⟨"c", 5, 1, 3⟩]⟩] = [("c", [⟨"T", 5, 1, 3⟩])] := by
  constructor
  · simp only [is_salient, Bool.or_eq_false_iff, decide_eq_false_iff_not]
    norm_num
  · simp [find_salient_commits, salient_step, is_salient, dict_append, unpack_salient,
      DELTA_THRESHOLD, SPEEDUP_THRESHOLD]
    norm_num

/-- C5 (amended): `find_salient_commits` classifies every statistic against
the global thresholds it is invoked with; the `delta_threshold` and
`speedup_threshold` fields stored in each `BenchmarkStatistics` are recorded
metadata only — replacing them by arbitrary values leaves the result
unchanged. -/
theorem find_salient_commits_stored_thresholds_irrelevant (dt st : ℚ)
    (l : List BenchmarkStatistics) (g h : BenchmarkStatistics → ℚ) :
    find_salient_commits dt st
        (l.map fun bs => { bs with delta_threshold := g bs, speedup_threshold := h bs }) =
      find_salient_commits dt st l := by
  rw [find_salient_commits, find_salient_commits, List.foldl_map]

end Analyzer

namespace Analyzer

/-- C7: the end-to-end example — the series for test "T" with measurements
`[10, 9.5, 5]` for commits `c1`, `c2`, `c3` under thresholds delta `2`,
speedup `2.0` yields statistics `(c1 : delta 1/2, speedup 20/19 ≈ 1.053,
not salient)` and `(c2 : delta 9/2, speedup 19/10, salient by the delta
rule)`, std dev within `[2.75, 2.76)`, and a salient map holding exactly one
entry keyed by `c2` with test "T", runtime `19/2`, speedup `19/10`, delta
`9/2`. -/
theorem analyze_pipeline_example :
    ∃ bs, analyze_report_list DELTA_THRESHOLD SPEEDUP_THRESHOLD
        [⟨"c1", ⟨"T", 10⟩⟩, ⟨"c2", ⟨"T", 19/2⟩⟩, ⟨"c3", ⟨"T", 5⟩⟩] = .ok bs ∧
      bs.test_name = "T" ∧
      bs.junit_statistics = [⟨"c1", 10, 20/19, 1/2⟩, ⟨"c2", 19/2, 19/10, 9/2⟩] ∧
      is_salient DELTA_THRESHOLD SPEEDUP_THRESHOLD ⟨"c1", 10, 20/19, 1/2⟩ = false ∧
      is_salient DELTA_THRESHOLD SPEEDUP_THRESHOLD ⟨"c2", 19/2, 19/10, 9/2⟩ = true ∧
      |(20/19 : ℚ) - 1053/1000| < 1/1000 ∧
      (2.75 : ℝ) < bs.std_dev ∧ bs.std_dev < 2.76 ∧
      find_salient_commits DELTA_THRESHOLD SPEEDUP_THRESHOLD [bs] =
        [("c2", [⟨"T", 19/2, 19/10, 9/2⟩])] := by
  have hsd : series_std_dev [⟨"c1", ⟨"T", 10⟩⟩, ⟨"c2", ⟨"T", 19/2⟩⟩, ⟨"c3", ⟨"T", 5⟩⟩] =
      Real.sqrt ((91/12 : ℚ) : ℝ) := by
    rw [series_std_dev, if_pos (by norm_num), compute_std_deviation]
    norm_num [sample_variance, listMean]
  refine ⟨⟨"T", series_std_dev [⟨"c1", ⟨"T", 10⟩⟩, ⟨"c2", ⟨"T", 19/2⟩⟩, ⟨"c3", ⟨"T", 5⟩⟩],
    DELTA_THRESHOLD, SPEEDUP_THRESHOLD, [⟨"c1", 10, 20/19, 1/2⟩, ⟨"c2", 19/2, 19/10, 9/2⟩]⟩,
    ?_, rfl, rfl, ?_, ?_, ?_, ?_, ?_, ?_⟩
  · simp [analyze_report_list, pair_stat, pyInt, List.range_succ]
    norm_num
  · simp only [is_salient, Bool.or_eq_false_iff, decide_eq_false_iff_not]
    norm_num [DELTA_THRESHOLD, SPEEDUP_THRESHOLD]
  · simp only [is_salient, Bool.or_eq_true, decide_eq_true_eq]
    norm_num [DELTA_THRESHOLD]
  · rw [show (20/19 : ℚ) - 1053/1000 = -(7/19000) by norm_num, abs_neg,
      abs_of_pos (by norm_num : (0 : ℚ) < 7/19000)]
    norm_num
  · show (2.75 : ℝ) <
      series_std_dev [⟨"c1", ⟨"T", 10⟩⟩, ⟨"c2", ⟨"T", 19/2⟩⟩, ⟨"c3", ⟨"T", 5⟩⟩]
    rw [hsd, show (((91 : ℚ)/12 : ℚ) : ℝ) = 91/12 by push_cast; ring,
      Real.lt_sqrt (by norm_num)]
    norm_num
  · show series_std_dev [⟨"c1", ⟨"T", 10⟩⟩, ⟨"c2", ⟨"T", 19/2⟩⟩, ⟨"c3", ⟨"T", 5⟩⟩] <
      (2.76 : ℝ)
    rw [hsd, show (((91 : ℚ)/12 : ℚ) : ℝ) = 91/12 by push_cast; ring,
      Real.sqrt_lt' (by norm_num)]
    norm_num
  · norm_num [find_salient_commits, salient_step, is_salient, dict_append, unpack_salient,
      DELTA_THRESHOLD, SPEEDUP_THRESHOLD]

end Analyzer

namespace Analyzer

/-! ### Dict lemmas for the aggregation claims -/

lemma total_count_dict_append (m : List (String × List SalienceData)) (k : String)
    (v : SalienceData) :
    total_count (dict_append m k v) = total_count m + 1 := by
  induction m with
  | nil => simp [dict_append, total_count]
  | cons p rest ih =>
    by_cases hpk : p.1 = k
    · simp [dict_append, hpk, total_count]
      omega
    · simp only [dict_append, if_neg hpk, total_count, List.map_cons, List.sum_cons]
      simp only [total_count] at ih
      omega

lemma total_count_salient_step (dt st : ℚ) (tn : String)
    (acc : List (String × List SalienceData)) (cs : JUnitStatistics) :
    total_count (salient_step dt st tn acc cs) =
      total_count acc + (if is_salient dt st cs then 1 else 0) := by
  by_cases h : is_salient dt st cs
  · simp [salient_step, h, total_count_dict_append]
  · simp [salient_step, h]

lemma total_count_foldl_stats (dt st : ℚ) (tn : String) (stats : List JUnitStatistics)
    (acc : List (String × List SalienceData)) :
    total_count (stats.foldl (salient_step dt st tn) acc) =
      total_count acc + (stats.filter fun cs => is_salient dt st cs).length := by
  induction stats generalizing acc with
  | nil => simp
  | cons cs rest ih =>
    rw [List.foldl_cons, ih, total_count_salient_step]
    by_cases h : is_salient dt st cs
    · simp [List.filter_cons, h]
      omega
    · simp [List.filter_cons, h]

lemma total_count_foldl_series (dt st : ℚ) (l : List BenchmarkStatistics)
    (acc : List (String × List SalienceData)) :
    total_count (l.foldl
        (fun acc bs => bs.junit_statistics.foldl (salient_step dt st bs.test_name) acc) acc) =
      total_count acc +
        (l.map fun bs => (bs.junit_statistics.filter fun cs => is_salient dt st cs).length).sum := by
  induction l generalizing acc with
  | nil => simp
  | cons bs rest ih =>
    rw [List.foldl_cons, ih, total_count_foldl_stats]
    simp
    omega

lemma valueAt_dict_append (m : List (String × List SalienceData)) (k : String)
    (v : SalienceData) (q : String) :
    valueAt (dict_append m k v) q = if q = k then valueAt m k ++ [v] else valueAt m q := by
  induction m with
  | nil =>
    by_cases h : q = k
    · subst h
      simp [dict_append, valueAt]
    · simp [dict_append, valueAt, h, Ne.symm h]
  | cons p rest ih =>
    by_cases hpk : p.1 = k
    · by_cases hq : q = k
      · subst hq
        simp [dict_append, if_pos hpk, valueAt, hpk]
      · have hpq : p.1 ≠ q := fun hh => hq (hh.symm.trans hpk)
        simp [dict_append, if_pos hpk, valueAt, hpq, hq]
    · by_cases hpq : p.1 = q
      · have hq : q ≠ k := fun hh => hpk (hpq.trans hh)
        simp [dict_append, if_neg hpk, valueAt, hpq, hq]
      · by_cases hq : q = k
        · subst hq
          simp [dict_append, if_neg hpk, valueAt, hpq, ih, hpk]
        · simp [dict_append, if_neg hpk, valueAt, hpq, ih, hq]

lemma valueAt_salient_step (dt st : ℚ) (tn : String)
    (acc : List (String × List SalienceData)) (cs : JUnitStatistics) (q : String) :
    valueAt (salient_step dt st tn acc cs) q =
      valueAt acc q ++
        (if is_salient dt st cs && decide (cs.commit_id = q) then [unpack_salient tn cs]
         else []) := by
  by_cases h : is_salient dt st cs
  · rw [salient_step, if_pos h, valueAt_dict_append]
    by_cases hq : q = cs.commit_id
    · simp [hq, h]
    · simp [hq, h, Ne.symm hq]
  · simp [salient_step, h]

lemma valueAt_foldl_stats (dt st : ℚ) (tn : String) (stats : List JUnitStatistics)
    (acc : List (String × List SalienceData)) (q : String) :
    valueAt (stats.foldl (salient_step dt st tn) acc) q =
      valueAt acc q ++
        ((stats.filter fun cs => is_salient dt st cs && decide (cs.commit_id = q)).map
          (unpack_salient tn)) := by
  induction stats generalizing acc with
  | nil => simp
  | cons cs rest ih =>
    rw [List.foldl_cons, ih, valueAt_salient_step]
    by_cases h : is_salient dt st cs && decide (cs.commit_id = q)
    · simp [List.filter_cons, h]
    · simp [List.filter_cons, h]

lemma valueAt_foldl_series (dt st : ℚ) (l : List BenchmarkStatistics)
    (acc : List (String × List SalienceData)) (q : String) :
    valueAt (l.foldl
        (fun acc bs => bs.junit_statistics.foldl (salient_step dt st bs.test_name) acc) acc) q =
      valueAt acc q ++
        (l.map fun bs =>
          (bs.junit_statistics.filter fun cs =>
            is_salient dt st cs && decide (cs.commit_id = q)).map
            (unpack_salient bs.test_name)).flatten := by
  induction l generalizing acc with
  | nil => simp
  | cons bs rest ih =>
    rw [List.foldl_cons, ih, valueAt_foldl_stats]
    simp [List.append_assoc]

end Analyzer

namespace Analyzer

lemma mem_keys_dict_append (m : List (String × List SalienceData)) (k : String)
    (v : SalienceData) (q : String) :
    q ∈ keys (dict_append m k v) ↔ q ∈ keys m ∨ q = k := by
  induction m with
  | nil => simp [dict_append, keys]
  | cons p rest ih =>
    by_cases hpk : p.1 = k
    · simp only [dict_append, if_pos hpk, keys, List.map_cons, List.mem_cons] at ih ⊢
      constructor
      · rintro (h1 | h2)
        · exact Or.inl (Or.inl h1)
        · exact Or.inl (Or.inr h2)
      · rintro ((h1 | h2) | h3)
        · exact Or.inl h1
        · exact Or.inr h2
        · exact Or.inl (h3.trans hpk.symm)
    · simp only [dict_append, if_neg hpk, keys, List.map_cons, List.mem_cons] at ih ⊢
      rw [ih]
      tauto

lemma mem_keys_salient_step (dt st : ℚ) (tn : String)
    (acc : List (String × List SalienceData)) (cs : JUnitStatistics) (q : String) :
    q ∈ keys (salient_step dt st tn acc cs) ↔
      q ∈ keys acc ∨ (is_salient dt st cs = true ∧ cs.commit_id = q) := by
  by_cases h : is_salient dt st cs
  · rw [salient_step, if_pos h, mem_keys_dict_append]
    simp [h, eq_comm]
  · simp [salient_step, h]

lemma mem_keys_foldl_stats (dt st : ℚ) (tn : String) (stats : List JUnitStatistics)
    (acc : List (String × List SalienceData)) (q : String) :
    q ∈ keys (stats.foldl (salient_step dt st tn) acc) ↔
      q ∈ keys acc ∨ ∃ cs ∈ stats, is_salient dt st cs = true ∧ cs.commit_id = q := by
  induction stats generalizing acc with
  | nil => simp
  | cons cs rest ih =>
    rw [List.foldl_cons, ih, mem_keys_salient_step]
    simp only [List.mem_cons]
    constructor
    · rintro ((h1 | h2) | ⟨c, hc, hsal⟩)
      · exact Or.inl h1
      · exact Or.inr ⟨cs, Or.inl rfl, h2⟩
      · exact Or.inr ⟨c, Or.inr hc, hsal⟩
    · rintro (h1 | ⟨c, hc | hc, hsal⟩)
      · exact Or.inl (Or.inl h1)
      · exact Or.inl (Or.inr (hc ▸ hsal))
      · exact Or.inr ⟨c, hc, hsal⟩

lemma mem_keys_foldl_series (dt st : ℚ) (l : List BenchmarkStatistics)
    (acc : List (String × List SalienceData)) (q : String) :
    q ∈ keys (l.foldl
        (fun acc bs => bs.junit_statistics.foldl (salient_step dt st bs.test_name) acc) acc) ↔
      q ∈ keys acc ∨
        ∃ bs ∈ l, ∃ cs ∈ bs.junit_statistics, is_salient dt st cs = true ∧ cs.commit_id = q := by
  induction l generalizing acc with
  | nil => simp
  | cons bs rest ih =>
    rw [List.foldl_cons, ih, mem_keys_foldl_stats]
    simp only [List.mem_cons]
    constructor
    · rintro ((h1 | ⟨c, hc, hsal⟩) | ⟨b, hb, hrest⟩)
      · exact Or.inl h1
      · exact Or.inr ⟨bs, Or.inl rfl, c, hc, hsal⟩
      · exact Or.inr ⟨b, Or.inr hb, hrest⟩
    · rintro (h1 | ⟨b, hb | hb, hrest⟩)
      · exact Or.inl (Or.inl h1)
      · exact Or.inl (Or.inr (hb ▸ hrest))
      · exact Or.inr ⟨b, hb, hrest⟩

lemma values_nonempty_dict_append (m : List (String × List SalienceData)) (k : String)
    (v : SalienceData) (H : ∀ q ∈ m, q.2 ≠ ([] : List SalienceData)) :
    ∀ q ∈ dict_append m k v, q.2 ≠ ([] : List SalienceData) := by
  induction m with
  | nil =>
    intro q hq
    simp only [dict_append, List.mem_singleton] at hq
    subst hq
    simp
  | cons p rest ih =>
    intro q hq
    by_cases hpk : p.1 = k
    · rw [dict_append, if_pos hpk] at hq
      rcases List.mem_cons.mp hq with h1 | h2
      · subst h1
        simp
      · exact H q (List.mem_cons_of_mem p h2)
    · rw [dict_append, if_neg hpk] at hq
      rcases List.mem_cons.mp hq with h1 | h2
      · exact h1 ▸ H p (List.mem_cons_self p rest)
      · exact ih (fun r hr => H r (List.mem_cons_of_mem p hr)) q h2

lemma values_nonempty_salient_step (dt st : ℚ) (tn : String)
    (acc : List (String × List SalienceData)) (cs : JUnitStatistics)
    (H : ∀ q ∈ acc, q.2 ≠ ([] : List SalienceData)) :
    ∀ q ∈ salient_step dt st tn acc cs, q.2 ≠ ([] : List SalienceData) := by
  by_cases h : is_salient dt st cs
  · rw [salient_step, if_pos h]
    exact values_nonempty_dict_append acc cs.commit_id (unpack_salient tn cs) H
  · rw [salient_step, if_neg h]
    exact H

lemma values_nonempty_foldl_stats (dt st : ℚ) (tn : String) (stats : List JUnitStatistics)
    (acc : List (String × List SalienceData))
    (H : ∀ q ∈ acc, q.2 ≠ ([] : List SalienceData)) :
    ∀ q ∈ stats.foldl (salient_step dt st tn) acc, q.2 ≠ ([] : List SalienceData) := by
  induction stats generalizing acc with
  | nil => exact H
  | cons cs rest ih =>
    rw [List.foldl_cons]
    exact ih (salient_step dt st tn acc cs) (values_nonempty_salient_step dt st tn acc cs H)

lemma values_nonempty_foldl_series (dt st : ℚ) (l : List BenchmarkStatistics)
    (acc : List (String × List SalienceData))
    (H : ∀ q ∈ acc, q.2 ≠ ([] : List SalienceData)) :
    ∀ q ∈ l.foldl
        (fun acc bs => bs.junit_statistics.foldl (salient_step dt st bs.test_name) acc) acc,
      q.2 ≠ ([] : List SalienceData) := by
  induction l generalizing acc with
  | nil => exact H
  | cons bs rest ih =>
    rw [List.foldl_cons]
    exact ih _ (values_nonempty_foldl_stats dt st bs.test_name bs.junit_statistics acc H)

end Analyzer

namespace Analyzer

/-- C6: the total number of entries across all values of the resulting map
equals the sum over the input series of their salient-statistic counts, and
the value list under each key `q` is exactly the sequence of salience
records, one per salient statistic with commit id `q`, in input order —
nothing is overwritten or deduplicated. -/
theorem find_salient_commits_total_count (dt st : ℚ) (l : List BenchmarkStatistics) :
    total_count (find_salient_commits dt st l) =
      (l.map fun bs => (bs.junit_statistics.filter fun cs => is_salient dt st cs).length).sum ∧
    ∀ q, valueAt (find_salient_commits dt st l) q =
      (l.map fun bs =>
        (bs.junit_statistics.filter fun cs =>
          is_salient dt st cs && decide (cs.commit_id = q)).map
          (unpack_salient bs.test_name)).flatten := by
  constructor
  · rw [find_salient_commits, total_count_foldl_series]
    simp [total_count]
  · intro q
    rw [find_salient_commits, valueAt_foldl_series]
    simp [valueAt]

/-- C10: the salient-commit map never holds a key with an empty value list,
and a commit id occurs as a key exactly when some statistic of some input
series with that commit id is salient. -/
theorem find_salient_commits_keys_sound (dt st : ℚ) (l : List BenchmarkStatistics)
    (k : String) :
    (∀ w, (k, w) ∈ find_salient_commits dt st l → w ≠ ([] : List SalienceData)) ∧
    (k ∈ keys (find_salient_commits dt st l) ↔
      ∃ bs ∈ l, ∃ cs ∈ bs.junit_statistics, is_salient dt st cs = true ∧ cs.commit_id = k) := by
  constructor
  · intro w hw
    exact values_nonempty_foldl_series dt st l [] (by simp) (k, w) hw
  · rw [find_salient_commits, mem_keys_foldl_series]
    simp [keys]

/-- Witness for C10: the value list stored for commit `c` in a concrete
one-series run is non-empty. -/
theorem find_salient_commits_keys_sound_witness :
    ([⟨"T", 5, 1, 3⟩] : List SalienceData) ≠ ([] : List SalienceData) :=
  (find_salient_commits_keys_sound 2 2
      [⟨"T", 0, 2, 2, [⟨"c", 5, 1, 3⟩]⟩] "c").1 [⟨"T", 5, 1, 3⟩]
    (by norm_num [find_salient_commits, salient_step, is_salient, dict_append, unpack_salient])

end Analyzer
